import Mathlib

/-!
Verification of the handshake negotiator in
`src/tunnelto_server/src/client_auth.rs`.

Shallow embedding notes:
- The WebSocket channel is modelled by the list of reply messages the
  function writes, paired with the optional handshake result.
- External collaborators (the live registry `Connections::client_for_host`,
  the static `BLOCKED_SUB_DOMAINS` set, the `ALLOWED_AUTH_KEYS` process
  configuration, and the random name generator) are threaded through an
  explicit environment record.
- Rust `String` is Lean `String`; `.chars()` is `.data`;
  `char::is_alphanumeric` is `Char.isAlphanum`; `str::to_lowercase` is a
  per-character lowering (`List.map Char.toLower` on the char list).
-/

namespace ClientAuth

/-- Opaque client identifier (`tunnelto_lib::ClientId`); only compared for
equality by this module. -/
structure ClientId where
  raw : String
deriving DecidableEq

/-- Modelled from the spec: the declared client type of a current-format
hello, `"anonymous" | \x7b "auth": \x7b key: string \x7d \x7d` (the concrete
type lives in `tunnelto_lib`, which is not under `src/`). -/
inductive ClientType where
  | anonymous : ClientType
  | auth (key : String) : ClientType
deriving DecidableEq

/-- Legacy wire shape (`tunnelto_lib::ClientHelloV1`): `\x7b id, sub_domain? \x7d`,
no client-type field; per the spec it is always treated as anonymous. -/
structure ClientHelloV1 where
  id : ClientId
  sub_domain : Option String
deriving DecidableEq

/-- Current wire shape (`tunnelto_lib::ClientHello`):
`\x7b id, sub_domain?, client_type \x7d`. -/
structure ClientHello where
  id : ClientId
  sub_domain : Option String
  client_type : ClientType
deriving DecidableEq

/-- The reply messages this module can write (`tunnelto_lib::ServerHello`
rejection variants). -/
inductive ServerHello where
  | authFailed : ServerHello
  | subDomainInUse : ServerHello
  | invalidSubDomain : ServerHello
deriving DecidableEq

/-- Modelled from the spec: the adjudication decision of the auth store
(`crate::auth_db::AuthResult`, not under `src/`): available, reserved by the
caller, or reserved by someone else. -/
inductive AuthResult where
  | available : AuthResult
  | reservedByYou : AuthResult
  | reservedByOther : AuthResult
deriving DecidableEq

/-- Modelled from the spec: an opaque failure of the backing auth store
(`crate::auth_db::Error`, not under `src/`). -/
structure AuthError where
  msg : String
deriving DecidableEq

/-- The successful handshake result (`ClientHandshake`). -/
structure ClientHandshake where
  id : ClientId
  sub_domain : String
  is_anonymous : Bool
deriving DecidableEq

/-- Modelled from the spec: the abstract fields carried by a hello message
body; `client_type = none` means the wire message has no client-type field
(legacy shape), `some ct` means it carries one (current shape). -/
structure RawHello where
  id : ClientId
  sub_domain : Option String
  client_type : Option ClientType
deriving DecidableEq

/-- Modelled from the spec: an inbound message body is either a hello
carrying the fields above, or garbage that parses as neither wire shape. -/
inductive RawMsg where
  | hello (h : RawHello) : RawMsg
  | garbage : RawMsg
deriving DecidableEq

/-- External collaborators, threaded explicitly: the live registry lookup
(`Connections::client_for_host`), the reserved-name set
(`BLOCKED_SUB_DOMAINS`), the credential allow-list (`allowed_auth_key()`
result), and the randomness consumed by the name generator during this
handshake. -/
structure Env where
  client_for_host : String → Option ClientId
  blocked : List String
  allowed : List String
  rand : String

/-- Modelled from the spec: the external name generator's
`random_name() -> string`; it returns the handshake's fresh random string. -/
def random_domain (rand : String) : String := rand

/-- Modelled from the spec: the external name generator's
`prefixed_random_name(prefix) -> string`; it returns the prefix joined to a
fresh randomized suffix. -/
def prefixed_random_domain (rand pre : String) : String := pre ++ "-" ++ rand

/-- Embedding of Rust `str::to_lowercase` as used here: lower-case each
character of the requested name. -/
def to_lowercase (s : String) : String := ⟨s.data.map Char.toLower⟩

/-- Modelled from the spec: parsing the message body as the legacy shape
(`serde_json::from_slice::<ClientHelloV1>`). Per the spec invariant a
message parses as exactly one of the two shapes, so a body carrying a
client-type field does not parse as legacy. -/
def parse_v1 : RawMsg → Option ClientHelloV1
  | RawMsg.hello h =>
    match h.client_type with
    | none => some ⟨h.id, h.sub_domain⟩
    | some _ => none
  | RawMsg.garbage => none

/-- Modelled from the spec: parsing the message body as the current shape
(`serde_json::from_slice::<ClientHello>`); the client-type field is
mandatory there, so a legacy body does not parse as current. -/
def parse_hello : RawMsg → Option ClientHello
  | RawMsg.hello h =>
    match h.client_type with
    | some ct => some ⟨h.id, h.sub_domain, ct⟩
    | none => none
  | RawMsg.garbage => none

/-- `sanitize_sub_domain_and_pre_validate`: lower-case the request, reject
any non-alphanumeric character with InvalidSubDomain, reject a live-registry
collision with a different owner with SubDomainInUse, reject a reserved name
with SubDomainInUse, else succeed with the sanitized name. Returns the
replies written and the optional sanitized name. -/
def sanitize_sub_domain_and_pre_validate (env : Env)
    (requested_sub_domain : String) (client_id : ClientId) :
    List ServerHello × Option String :=
  let sub_domain := to_lowercase requested_sub_domain
  if (sub_domain.data.filter (fun c => !c.isAlphanum)).length > 0 then
    ([ServerHello.invalidSubDomain], none)
  else
    let existing_client := env.client_for_host sub_domain
    if existing_client.isSome && !(some client_id == existing_client) then
      ([ServerHello.subDomainInUse], none)
    else if env.blocked.contains sub_domain then
      ([ServerHello.subDomainInUse], none)
    else
      ([], some sub_domain)

/-- Embedding of Rust `s.split(",")` on the character list: the maximal
segments between commas, so the empty string splits to `[""]` and adjacent
commas yield empty segments. -/
def split_comma : List Char → List String
  | [] => [""]
  | c :: rest =>
    if c = ',' then
      "" :: split_comma rest
    else
      match split_comma rest with
      | [] => [String.mk [c]]
      | p :: ps => String.mk (c :: p.data) :: ps

/-- `allowed_auth_key`: the comma-split of the `ALLOWED_AUTH_KEYS`
environment value, or the empty list when the variable is unset. The
environment read is passed in as an `Option String`. -/
def allowed_auth_key (envVar : Option String) : List String :=
  match envVar with
  | some s => split_comma s.data
  | none => []

/-- `env_auth_sub_domain`: the adjudicator. Membership of the credential in
the allow-list decides ReservedByYou versus ReservedByOther. -/
def env_auth_sub_domain (allowed : List String) (auth_key : String)
    (subdomain : String) : Except AuthError AuthResult :=
  if allowed.contains auth_key then
    Except.ok AuthResult.reservedByYou
  else
    Except.ok AuthResult.reservedByOther

/-- The match on the adjudication outcome at the tail of `auth_client`
(lines 93-106): Available or ReservedByYou grant the sanitized name in a
non-anonymous result; ReservedByOther writes SubDomainInUse; an adjudication
error writes AuthFailed. -/
def finish_auth (id : ClientId) (sub_domain : String) :
    Except AuthError AuthResult → List ServerHello × Option ClientHandshake
  | Except.ok AuthResult.available => ([], some ⟨id, sub_domain, false⟩)
  | Except.ok AuthResult.reservedByYou => ([], some ⟨id, sub_domain, false⟩)
  | Except.ok AuthResult.reservedByOther => ([ServerHello.subDomainInUse], none)
  | Except.error _ => ([ServerHello.authFailed], none)

/-- `auth_client_v1`: the legacy path. No requested name gives a fresh
random name; a requested name is sanitized and, on success, prefixed with a
randomized suffix; the result is always anonymous. -/
def auth_client_v1 (env : Env) (client_hello : ClientHelloV1) :
    List ServerHello × Option ClientHandshake :=
  match client_hello.sub_domain with
  | none =>
    ([], some ⟨client_hello.id, random_domain env.rand, true⟩)
  | some sub_domain =>
    match sanitize_sub_domain_and_pre_validate env sub_domain client_hello.id with
    | (replies, none) => (replies, none)
    | (replies, some sub_domain) =>
      (replies,
        some ⟨client_hello.id, prefixed_random_domain env.rand sub_domain, true⟩)

/-- `auth_client`: the current path. Parse the current shape (AuthFailed on
failure), then dispatch on the declared client type: Anonymous yields a
prefixed-random or fresh random anonymous name with no further checks;
Auth sanitizes any requested name and adjudicates the credential, or skips
adjudication entirely when no name is requested. -/
def auth_client (env : Env) (msg : RawMsg) :
    List ServerHello × Option ClientHandshake :=
  match parse_hello msg with
  | none => ([ServerHello.authFailed], none)
  | some client_hello =>
    match client_hello.client_type with
    | ClientType.anonymous =>
      let sub_domain :=
        match client_hello.sub_domain with
        | some sd => prefixed_random_domain env.rand sd
        | none => random_domain env.rand
      ([], some ⟨client_hello.id, sub_domain, true⟩)
    | ClientType.auth key =>
      match client_hello.sub_domain with
      | some requested_sub_domain =>
        match sanitize_sub_domain_and_pre_validate env requested_sub_domain
            client_hello.id with
        | (replies, none) => (replies, none)
        | (replies, some sub_domain) =>
          let (replies2, res) :=
            finish_auth client_hello.id sub_domain
              (env_auth_sub_domain env.allowed key sub_domain)
          (replies ++ replies2, res)
      | none =>
        ([], some ⟨client_hello.id, random_domain env.rand, false⟩)

/-- `auth_client_handshake`: read one message (none means silent abort),
attempt the legacy parse first, and fall back to the current path only when
the legacy parse fails. -/
def auth_client_handshake (env : Env) (msg : Option RawMsg) :
    List ServerHello × Option ClientHandshake :=
  match msg with
  | none => ([], none)
  | some m =>
    match parse_v1 m with
    | some client_hello_v1 => auth_client_v1 env client_hello_v1
    | none => auth_client env m

/-! ### Helper lemmas -/

/-- The sanitizer has exactly three outcomes: an InvalidSubDomain rejection,
a SubDomainInUse rejection, or success with the lower-cased request and no
reply written. -/
theorem sanitize_cases (env : Env) (req : String) (id : ClientId) :
    sanitize_sub_domain_and_pre_validate env req id
        = ([ServerHello.invalidSubDomain], none) ∨
    sanitize_sub_domain_and_pre_validate env req id
        = ([ServerHello.subDomainInUse], none) ∨
    sanitize_sub_domain_and_pre_validate env req id
        = ([], some (to_lowercase req)) := by
  simp only [sanitize_sub_domain_and_pre_validate]
  split_ifs <;> simp

/-- On success the sanitizer returns exactly the lower-cased request. -/
theorem sanitize_eq_some (env : Env) (req : String) (id : ClientId)
    (replies : List ServerHello) (sub : String)
    (h : sanitize_sub_domain_and_pre_validate env req id = (replies, some sub)) :
    replies = [] ∧ sub = to_lowercase req := by
  rcases sanitize_cases env req id with hc | hc | hc <;> rw [hc] at h
  · injection h with h1 h2
    exact Option.noConfusion h2
  · injection h with h1 h2
    exact Option.noConfusion h2
  · injection h with h1 h2
    injection h2 with h3
    exact ⟨h1.symm, h3.symm⟩

/-- Lower-casing preserves the character count. -/
theorem to_lowercase_length (s : String) :
    (to_lowercase s).length = s.length := by
  show (s.data.map Char.toLower).length = s.data.length
  simp

/-! ### Claims -/

/-- C1: format detection attempts the legacy parse first and falls back to
the current path only when it fails; every message carrying a client_type
field fails the legacy parse and is dispatched on the current path, never
silently treated as a legacy hello. -/
theorem c1_current_format_never_legacy (env : Env) (h : RawHello)
    (ct : ClientType) (hct : h.client_type = some ct) :
    parse_v1 (RawMsg.hello h) = none ∧
    auth_client_handshake env (some (RawMsg.hello h))
      = auth_client env (RawMsg.hello h) := by
  obtain ⟨id, osd, octy⟩ := h
  cases octy with
  | none => cases hct
  | some ct2 => exact ⟨rfl, rfl⟩

/-- Witness for C1 at a concrete current-format message. -/
theorem c1_current_format_never_legacy_witness :
    parse_v1 (RawMsg.hello ⟨⟨"c"⟩, some "abc", some ClientType.anonymous⟩)
      = none ∧
    auth_client_handshake (Env.mk (fun _ => none) [] [] "r")
        (some (RawMsg.hello ⟨⟨"c"⟩, some "abc", some ClientType.anonymous⟩))
      = auth_client (Env.mk (fun _ => none) [] [] "r")
          (RawMsg.hello ⟨⟨"c"⟩, some "abc", some ClientType.anonymous⟩) :=
  c1_current_format_never_legacy (Env.mk (fun _ => none) [] [] "r")
    ⟨⟨"c"⟩, some "abc", some ClientType.anonymous⟩ ClientType.anonymous rfl

/-- C2: the adjudicator ignores the subdomain name (same decision for any
two names), never answers Available, and answers ReservedByYou exactly when
the credential is in the allow-list, ReservedByOther otherwise. -/
theorem c2_adjudication_name_blind (allowed : List String) (key : String) :
    (∀ d1 d2 : String,
      env_auth_sub_domain allowed key d1 = env_auth_sub_domain allowed key d2) ∧
    (∀ d : String,
      env_auth_sub_domain allowed key d ≠ Except.ok AuthResult.available) ∧
    (∀ d : String, allowed.contains key = true →
      env_auth_sub_domain allowed key d = Except.ok AuthResult.reservedByYou) ∧
    (∀ d : String, allowed.contains key = false →
      env_auth_sub_domain allowed key d = Except.ok AuthResult.reservedByOther) := by
  refine ⟨fun d1 d2 => rfl, fun d => ?_, fun d hk => ?_, fun d hk => ?_⟩ <;>
    cases hc : allowed.contains key <;>
      simp_all [env_auth_sub_domain]

/-- Witness for C2 at concrete allow-lists and credentials. -/
theorem c2_adjudication_name_blind_witness :
    env_auth_sub_domain ["k"] "k" "a" = env_auth_sub_domain ["k"] "k" "b" ∧
    env_auth_sub_domain ["k"] "k" "a" = Except.ok AuthResult.reservedByYou ∧
    env_auth_sub_domain ["k"] "x" "a" = Except.ok AuthResult.reservedByOther :=
  ⟨(c2_adjudication_name_blind ["k"] "k").1 "a" "b",
   (c2_adjudication_name_blind ["k"] "k").2.2.1 "a" (by decide),
   (c2_adjudication_name_blind ["k"] "x").2.2.2 "a" (by decide)⟩

/-- C4: an anonymous current-format hello is never rejected: with a
requested name the result is the prefixed-random name over the raw request
(no sanitization or checks), without one it is a fresh random name; both
are anonymous and write no reply. -/
theorem c4_anonymous_never_rejected (env : Env) (id : ClientId) :
    (∀ sd : String,
      auth_client env (RawMsg.hello ⟨id, some sd, some ClientType.anonymous⟩)
        = ([], some ⟨id, prefixed_random_domain env.rand sd, true⟩)) ∧
    auth_client env (RawMsg.hello ⟨id, none, some ClientType.anonymous⟩)
      = ([], some ⟨id, random_domain env.rand, true⟩) :=
  ⟨fun _ => rfl, rfl⟩

/-- C10: allowed_auth_key is the comma-split of the environment value; with
the variable unset the allow-list is empty and every credential is
adjudicated ReservedByOther; with the variable set to the empty string the
allow-list is [""] and the empty credential is adjudicated ReservedByYou. -/
theorem c10_allowed_auth_key (s key sub : String) :
    allowed_auth_key (some s) = split_comma s.data ∧
    allowed_auth_key none = [] ∧
    env_auth_sub_domain (allowed_auth_key none) key sub
      = Except.ok AuthResult.reservedByOther ∧
    allowed_auth_key (some "") = [""] ∧
    env_auth_sub_domain (allowed_auth_key (some "")) "" sub
      = Except.ok AuthResult.reservedByYou := by
  refine ⟨rfl, rfl, rfl, by decide, rfl⟩

/-- A small concrete environment for instantiating the theorems: empty
registry, no reserved names, allow-list ["k"], randomness "r". -/
def sampleEnv : Env := ⟨fun _ => none, [], ["k"], "r"⟩

/-- A concrete environment whose registry maps "abc" to the client with raw
identifier "A". -/
def ownedEnv : Env := ⟨fun s => if s = "abc" then some ⟨"A"⟩ else none, [], [], "r"⟩

/-- A concrete environment whose reserved-name set holds "admin". -/
def blockedEnv : Env := ⟨fun _ => none, ["admin"], [], "r"⟩

/-- C3: on the authenticated path with a requested name that passes
sanitization, the adjudication outcome is mapped exactly: Available or
ReservedByYou grant the exact sanitized name in a non-anonymous result,
ReservedByOther writes SubDomainInUse and yields no result, an adjudication
error writes AuthFailed and yields no result; in particular an allow-listed
credential is granted the exact sanitized name and a non-allow-listed one
is rejected with SubDomainInUse. -/
theorem c3_authenticated_mapping (env : Env) (id : ClientId)
    (key req sub : String)
    (hs : sanitize_sub_domain_and_pre_validate env req id = ([], some sub)) :
    finish_auth id sub (Except.ok AuthResult.available)
      = ([], some ⟨id, sub, false⟩) ∧
    finish_auth id sub (Except.ok AuthResult.reservedByYou)
      = ([], some ⟨id, sub, false⟩) ∧
    finish_auth id sub (Except.ok AuthResult.reservedByOther)
      = ([ServerHello.subDomainInUse], none) ∧
    (∀ e : AuthError, finish_auth id sub (Except.error e)
      = ([ServerHello.authFailed], none)) ∧
    (env.allowed.contains key = true →
      auth_client env (RawMsg.hello ⟨id, some req, some (ClientType.auth key)⟩)
        = ([], some ⟨id, sub, false⟩)) ∧
    (env.allowed.contains key = false →
      auth_client env (RawMsg.hello ⟨id, some req, some (ClientType.auth key)⟩)
        = ([ServerHello.subDomainInUse], none)) := by
  refine ⟨rfl, rfl, rfl, fun e => rfl, ?_, ?_⟩ <;> intro hk
  · have hk2 : key ∈ env.allowed := by simpa using hk
    simp [auth_client, parse_hello, hs, env_auth_sub_domain, hk2, finish_auth]
  · have hk2 : key ∉ env.allowed := by simpa using hk
    simp [auth_client, parse_hello, hs, env_auth_sub_domain, hk2, finish_auth]

/-- Witness for C3: allow-list ["k"]; credential "k" is granted "abc"
exactly, credential "x" is rejected with SubDomainInUse. -/
theorem c3_authenticated_mapping_witness :
    auth_client sampleEnv
        (RawMsg.hello ⟨⟨"A"⟩, some "abc", some (ClientType.auth "k")⟩)
      = ([], some ⟨⟨"A"⟩, "abc", false⟩) ∧
    auth_client sampleEnv
        (RawMsg.hello ⟨⟨"A"⟩, some "abc", some (ClientType.auth "x")⟩)
      = ([ServerHello.subDomainInUse], none) :=
  ⟨(c3_authenticated_mapping sampleEnv ⟨"A"⟩ "k" "abc" "abc"
      (by decide)).2.2.2.2.1 (by decide),
   (c3_authenticated_mapping sampleEnv ⟨"A"⟩ "x" "abc" "abc"
      (by decide)).2.2.2.2.2 (by decide)⟩

/-- C5: a legacy hello whose requested name passes sanitization is assigned
the prefixed-random name over the sanitized request, marked anonymous; the
assigned name extends the sanitized request and is never exactly the
requested name. -/
theorem c5_legacy_never_exact (env : Env) (id : ClientId) (req sub : String)
    (hs : sanitize_sub_domain_and_pre_validate env req id = ([], some sub)) :
    auth_client_v1 env ⟨id, some req⟩
      = ([], some ⟨id, prefixed_random_domain env.rand sub, true⟩) ∧
    (∃ rest : String, prefixed_random_domain env.rand sub = sub ++ rest) ∧
    prefixed_random_domain env.rand sub ≠ req := by
  obtain ⟨-, hsub⟩ := sanitize_eq_some env req id [] sub hs
  refine ⟨by simp [auth_client_v1, hs], ⟨"-" ++ env.rand, ?_⟩, ?_⟩
  · simp [prefixed_random_domain, String.append_assoc]
  · intro heq
    have hlen := congrArg String.length heq
    simp only [prefixed_random_domain] at hlen
    rw [String.length_append, String.length_append, hsub,
      to_lowercase_length] at hlen
    have hone : ("-" : String).length = 1 := rfl
    rw [hone] at hlen
    omega

/-- Witness for C5: requesting "abc" through the legacy path yields the
prefixed name "abc-r", which is not "abc". -/
theorem c5_legacy_never_exact_witness :
    auth_client_v1 sampleEnv ⟨⟨"A"⟩, some "abc"⟩
      = ([], some ⟨⟨"A"⟩, prefixed_random_domain sampleEnv.rand "abc", true⟩) ∧
    (∃ rest : String,
      prefixed_random_domain sampleEnv.rand "abc" = "abc" ++ rest) ∧
    prefixed_random_domain sampleEnv.rand "abc" ≠ "abc" :=
  c5_legacy_never_exact sampleEnv ⟨"A"⟩ "abc" "abc" (by decide)

/-- C6: a request whose lower-cased form contains a non-alphanumeric
character is rejected with InvalidSubDomain, whatever the case of the
input, with no per-character filtering toward success. -/
theorem c6_nonalnum_rejected (env : Env) (id : ClientId) (req : String)
    (hbad : ((to_lowercase req).data.filter (fun c => !c.isAlphanum)).length > 0) :
    sanitize_sub_domain_and_pre_validate env req id
      = ([ServerHello.invalidSubDomain], none) ∧
    (∀ req2 : String, to_lowercase req2 = to_lowercase req →
      sanitize_sub_domain_and_pre_validate env req2 id
        = ([ServerHello.invalidSubDomain], none)) := by
  constructor
  · simp only [sanitize_sub_domain_and_pre_validate]
    rw [if_pos hbad]
  · intro req2 h2
    simp only [sanitize_sub_domain_and_pre_validate, h2]
    rw [if_pos hbad]

/-- Witness for C6: "a_b" (and its upper-cased variant "A_B") is rejected
with InvalidSubDomain. -/
theorem c6_nonalnum_rejected_witness :
    sanitize_sub_domain_and_pre_validate sampleEnv "a_b" ⟨"A"⟩
      = ([ServerHello.invalidSubDomain], none) ∧
    sanitize_sub_domain_and_pre_validate sampleEnv "A_B" ⟨"A"⟩
      = ([ServerHello.invalidSubDomain], none) :=
  ⟨(c6_nonalnum_rejected sampleEnv ⟨"A"⟩ "a_b" (by decide)).1,
   (c6_nonalnum_rejected sampleEnv ⟨"A"⟩ "a_b" (by decide)).2 "A_B" (by decide)⟩

/-- C7: when the live registry maps the sanitized name to A, the collision
check lets caller A through (succeeding outright when the name is not
reserved), while any distinct caller B is rejected with SubDomainInUse. -/
theorem c7_collision_check (env : Env) (req : String) (A : ClientId)
    (hval : ¬ ((to_lowercase req).data.filter (fun c => !c.isAlphanum)).length > 0)
    (hreg : env.client_for_host (to_lowercase req) = some A) :
    (env.blocked.contains (to_lowercase req) = false →
      sanitize_sub_domain_and_pre_validate env req A
        = ([], some (to_lowercase req))) ∧
    (∀ B : ClientId, B ≠ A →
      sanitize_sub_domain_and_pre_validate env req B
        = ([ServerHello.subDomainInUse], none)) := by
  constructor
  · intro hb
    have hb2 : to_lowercase req ∉ env.blocked := by simpa using hb
    simp only [sanitize_sub_domain_and_pre_validate]
    rw [if_neg hval]
    simp [hreg, hb2]
  · intro B hB
    simp only [sanitize_sub_domain_and_pre_validate]
    rw [if_neg hval]
    simp [hreg, hB]

/-- Witness for C7: with "abc" registered to A, caller A is allowed through
and caller B is rejected with SubDomainInUse. -/
theorem c7_collision_check_witness :
    sanitize_sub_domain_and_pre_validate ownedEnv "abc" ⟨"A"⟩
      = ([], some (to_lowercase "abc")) ∧
    sanitize_sub_domain_and_pre_validate ownedEnv "abc" ⟨"B"⟩
      = ([ServerHello.subDomainInUse], none) :=
  ⟨(c7_collision_check ownedEnv "abc" ⟨"A"⟩ (by decide) (by decide)).1 (by decide),
   (c7_collision_check ownedEnv "abc" ⟨"A"⟩ (by decide) (by decide)).2 ⟨"B"⟩
     (by decide)⟩

/-- C8: a valid-charactered request whose sanitized form is reserved is
rejected with SubDomainInUse for every caller and every registry state, and
a reserved name is never returned as a successful sanitized result. -/
theorem c8_reserved_rejected (env : Env) (req : String) (id : ClientId)
    (hval : ¬ ((to_lowercase req).data.filter (fun c => !c.isAlphanum)).length > 0)
    (hres : env.blocked.contains (to_lowercase req) = true) :
    sanitize_sub_domain_and_pre_validate env req id
      = ([ServerHello.subDomainInUse], none) ∧
    (∀ (env2 : Env) (req2 : String) (id2 : ClientId)
        (replies : List ServerHello) (sub : String),
      sanitize_sub_domain_and_pre_validate env2 req2 id2 = (replies, some sub) →
      env2.blocked.contains sub = false) := by
  constructor
  · have hres2 : to_lowercase req ∈ env.blocked := by simpa using hres
    simp only [sanitize_sub_domain_and_pre_validate]
    rw [if_neg hval]
    by_cases hc : ((env.client_for_host (to_lowercase req)).isSome
        && !(some id == env.client_for_host (to_lowercase req))) = true
    · simp [hc]
    · simp [hc, hres2]
  · intro env2 req2 id2 replies sub h
    simp only [sanitize_sub_domain_and_pre_validate] at h
    split_ifs at h with h1 h2 h3
    · exact absurd (congrArg Prod.snd h) (by simp)
    · exact absurd (congrArg Prod.snd h) (by simp)
    · exact absurd (congrArg Prod.snd h) (by simp)
    · have hsub : sub = to_lowercase req2 := by
        have h4 := congrArg Prod.snd h
        simpa using h4.symm
      subst hsub
      cases hx : env2.blocked.contains (to_lowercase req2) with
      | false => rfl
      | true => exact absurd hx h3

/-- Witness for C8: the reserved name "admin" is rejected with
SubDomainInUse even though no one owns it. -/
theorem c8_reserved_rejected_witness :
    sanitize_sub_domain_and_pre_validate blockedEnv "admin" ⟨"A"⟩
      = ([ServerHello.subDomainInUse], none) :=
  (c8_reserved_rejected blockedEnv "admin" ⟨"A"⟩ (by decide) (by decide)).1

/-- C9: the adjudicator is total over Ok (it never returns an error), so on
the authenticated path no AuthFailed reply is ever written once the message
has parsed: the adjudication-error branch is unreachable. -/
theorem c9_adjudicator_total (h : RawHello) (key : String)
    (hct : h.client_type = some (ClientType.auth key)) :
    (∀ (allowed : List String) (k d : String),
      ∃ r, env_auth_sub_domain allowed k d = Except.ok r) ∧
    (∀ env : Env,
      ServerHello.authFailed ∉ (auth_client env (RawMsg.hello h)).1) := by
  constructor
  · intro allowed k d
    by_cases hk : k ∈ allowed
    · exact ⟨AuthResult.reservedByYou, by simp [env_auth_sub_domain, hk]⟩
    · exact ⟨AuthResult.reservedByOther, by simp [env_auth_sub_domain, hk]⟩
  · intro env
    obtain ⟨id, osd, octy⟩ := h
    cases octy with
    | none => exact Option.noConfusion hct
    | some ct =>
      have hct2 : ct = ClientType.auth key := by injection hct
      subst hct2
      cases osd with
      | none => simp [auth_client, parse_hello]
      | some req =>
        rcases sanitize_cases env req id with hc | hc | hc <;>
          by_cases hk : key ∈ env.allowed <;>
            simp [auth_client, parse_hello, hc, finish_auth,
              env_auth_sub_domain, hk]

/-- Witness for C9 at a concrete authenticated hello: the adjudicator
answers Ok and no AuthFailed reply is written. -/
theorem c9_adjudicator_total_witness :
    (∃ r, env_auth_sub_domain [] "k" "abc" = Except.ok r) ∧
    ServerHello.authFailed ∉
      (auth_client sampleEnv
        (RawMsg.hello ⟨⟨"A"⟩, some "abc", some (ClientType.auth "x")⟩)).1 := by
  obtain ⟨h1, h2⟩ :=
    c9_adjudicator_total ⟨⟨"A"⟩, some "abc", some (ClientType.auth "x")⟩ "x" rfl
  exact ⟨h1 [] "k" "abc", h2 sampleEnv⟩

end ClientAuth
